import Mathlib

/-!
Verification development for the Syriac parse-tree repository.

Python strings are modelled as Lean `String` (a wrapper around `List Char`,
matching Python's codepoint-sequence semantics: `len` is the number of
codepoints, slicing is by codepoint index).  Python's fallible operations are
modelled with `Except` / `Option`; mutation of the parser's state (the message
queue, the output file, the console) is modelled by explicit state passing,
where every effectful function returns the state as mutated up to the point of
a raised exception together with an `Option String` describing the exception
(`none` = returned normally).
-/

namespace Syriac

/-! ### Python string primitives -/

/-- Resolution of the stop index of a Python slice `s[:j]` / `s[a:j]` for an
integer `j`: a negative `j` counts from the end of the string and the result
is clamped to `[0, len]` (`List.take` performs the upper clamp). -/
def sliceStop (len : Nat) (j : Int) : Nat :=
  if j < 0 then ((len : Int) + j).toNat else j.toNat

/-- Python `s[a:]` for a non-negative start index `a`. -/
def pyDrop (s : String) (a : Nat) : String :=
  String.mk (s.data.drop a)

/-- Python `s[:j]` for an arbitrary integer stop index `j`. -/
def pyTake (s : String) (j : Int) : String :=
  String.mk (s.data.take (sliceStop s.data.length j))

/-- Python `s[a:j]` for a non-negative start `a` and integer stop `j`. -/
def pySlice (s : String) (a : Nat) (j : Int) : String :=
  String.mk ((s.data.take (sliceStop s.data.length j)).drop a)

/-- Python `x or y` on an optional string `x` (`None` and `''` are falsy). -/
def pyOr (x : Option String) (y : String) : String :=
  match x with
  | none => y
  | some s => if s = "" then y else s

/-- Python `x or y` on a (required) string `x` (`''` is falsy). -/
def pyOrS (x y : String) : String :=
  if x = "" then y else x

/-! ### responses.py: the answer shapes -/

/-- `empty = '∅'` (responses.py). -/
def emptySym : String := "∅"

/-- The closed set of `WordResponse` subclasses (responses.py): each tree node
names one of these as its `response_type`. -/
inductive ResponseType where
  | PrefixedAnalyticalWordResponse
  | SuffixedPronounResponse
  | CompleteFormResponse
  | PrefixedSuffixedMorphemeResponse
  | MorphemeTypeResponse
deriving DecidableEq, Repr

/-- A validated `WordResponse` instance (responses.py).  The optional
`prefix`/`suffix` fields (`str | None` in the source) are modelled as
`Option String` (field names `pre`/`suf`). -/
inductive WordResponse where
  | PrefixedAnalyticalWordResponse (pre : Option String)
  | SuffixedPronounResponse (suf : Option String)
  | CompleteFormResponse (complete : String)
  | PrefixedSuffixedMorphemeResponse (pre suf : Option String)
  | MorphemeTypeResponse (morpheme_type : String)
deriving DecidableEq, Repr

/-- The `WordResponse` subclass an instance belongs to. -/
def WordResponse.typeOf : WordResponse → ResponseType
  | .PrefixedAnalyticalWordResponse _ => .PrefixedAnalyticalWordResponse
  | .SuffixedPronounResponse _ => .SuffixedPronounResponse
  | .CompleteFormResponse _ => .CompleteFormResponse
  | .PrefixedSuffixedMorphemeResponse _ _ => .PrefixedSuffixedMorphemeResponse
  | .MorphemeTypeResponse _ => .MorphemeTypeResponse

/-- `get_part(self, word, index)` of each `WordResponse` subclass
(responses.py).  A Python `raise ValueError(...)` is modelled as
`Except.error` carrying the formatted message. -/
def getPart : WordResponse → String → Nat → Except String String
  | .PrefixedAnalyticalWordResponse p, word, index =>
    let pr := pyOr p ""
    match index with
    | 0 => .ok pr
    | 1 => .ok (pyDrop word pr.length)
    | _ => .error ("Invalid index for PrefixedAnalyticalWordResponse: "
        ++ toString index)
  | .SuffixedPronounResponse s, word, index =>
    let sf := pyOr s ""
    match index with
    | 0 => .ok (pyTake word ((word.length : Int) - (sf.length : Int)))
    | 1 => .ok sf
    | _ => .error ("Invalid index for SuffixedPronounResponse: "
        ++ toString index)
  | .CompleteFormResponse c, _, _ => .ok c
  | .PrefixedSuffixedMorphemeResponse p s, word, index =>
    let pr := pyOr p ""
    let sf := pyOr s ""
    match index with
    | 0 => .ok pr
    | 1 => .ok (pySlice word pr.length ((word.length : Int) - (sf.length : Int)))
    | 2 => .ok sf
    | _ => .error ("Invalid index for PrefixedSuffixedMorphemeResponse: "
        ++ toString index)
  | .MorphemeTypeResponse m, _, _ => .ok m

/-- `__str__` of each `WordResponse` subclass (responses.py). -/
def render : WordResponse → String
  | .PrefixedAnalyticalWordResponse p => "Prefix: " ++ pyOr p emptySym
  | .SuffixedPronounResponse s => "Suffix: " ++ pyOr s emptySym
  | .CompleteFormResponse c => "Complete form: " ++ pyOrS c emptySym
  | .PrefixedSuffixedMorphemeResponse p s =>
      "Prefix: " ++ pyOr p emptySym ++ ", Suffix: " ++ pyOr s emptySym
  | .MorphemeTypeResponse m => "Morpheme type: " ++ pyOrS m emptySym

/-- The static `get_question(word)` of each `WordResponse` subclass
(responses.py); the question is determined by the class, not the instance. -/
def get_question : ResponseType → String → String
  | .PrefixedAnalyticalWordResponse, word =>
      "Is there any prefixed analytical word (preposition or ܘ) in the word "
        ++ word ++ "?"
  | .SuffixedPronounResponse, word =>
      "Is there any suffixed pronoun (possesive, objective, or attached to participles) in the word "
        ++ word ++ "?"
  | .CompleteFormResponse, word =>
      "What is the complete form of the word " ++ word ++ "?"
  | .PrefixedSuffixedMorphemeResponse, word =>
      "Is there any prefixed morpheme or suffixed morpheme in the word "
        ++ word ++ "?"
  | .MorphemeTypeResponse, word =>
      "What category does the morpheme of the word " ++ word ++ " belong to? "
        ++ "Choose from preformative, passive prefix, verbal stem morpheme, "
        ++ "verbal ending, nominal ending, or emphatic marker."

/-- `get_question_message(sentence)` (responses.py). -/
def get_question_message (sentence : String) : String :=
  "Please list all the words in the following sentence: " ++ sentence

/-! ### responses.py: the decomposition tree -/

/-- `Node` (responses.py): a response type together with the ordered child
slots, each either a concrete child node or `None`. -/
inductive Node where
  | node (response_type : ResponseType) (children : List (Option Node))
deriving Repr

/-- `response_tree` (responses.py): the fixed, hand-authored tree. -/
def response_tree : Node :=
  .node .PrefixedAnalyticalWordResponse
    [ none,
      some (.node .SuffixedPronounResponse
        [ some (.node .CompleteFormResponse
            [ some (.node .PrefixedSuffixedMorphemeResponse
                [ some (.node .MorphemeTypeResponse []),
                  some (.node .MorphemeTypeResponse []),
                  some (.node .MorphemeTypeResponse []) ]) ]),
          some (.node .CompleteFormResponse []) ])]

mutual
/-- Height of a tree node, counted in edges: a childless node has height 0. -/
def Node.height : Node → Nat
  | .node _ children => heightList children

/-- Height contributed by a list of child slots. -/
def heightList : List (Option Node) → Nat
  | [] => 0
  | none :: rest => heightList rest
  | some c :: rest => max (c.height + 1) (heightList rest)
end

/-- The index range accepted by each response type's `get_part`: for the two
terminal shapes every index is accepted (modelled as `none`). -/
def indexRange : ResponseType → Option Nat
  | .PrefixedAnalyticalWordResponse => some 2
  | .SuffixedPronounResponse => some 2
  | .CompleteFormResponse => none
  | .PrefixedSuffixedMorphemeResponse => some 3
  | .MorphemeTypeResponse => none

/-! ### utils/api.py: roles, messages, the message queue -/

/-- `Role` (utils/api.py): a `StrEnum`, each member equal to its lowercase
name. -/
def Role.system : String := "system"

/-- `Role.USER`. -/
def Role.user : String := "user"

/-- `Role.ASSISTANT`. -/
def Role.assistant : String := "assistant"

/-- `Role.TOOL`. -/
def Role.tool : String := "tool"

/-- One entry of a completion's `tool_calls` list.  In the source it is a
dict `{id, function: {name, arguments}}`; the nested `function` dict is
flattened into the two fields `name` and `arguments`. -/
structure ToolCall where
  id : String
  name : String
  arguments : String
deriving DecidableEq, Repr

/-- `Message` (utils/api.py): role, content and optional tool calls. -/
structure Message where
  role : String
  content : String
  tool_calls : Option (List ToolCall) := none
deriving DecidableEq, Repr

/-- `ToolMessage` (utils/api.py): a `Message` with two extra dataclass
fields. -/
structure ToolMessage extends Message where
  tool_call_id : String := ""
  name : String := ""
deriving DecidableEq, Repr

/-- An entry of `MessageQueue.messages`: either a plain `Message` or a
`ToolMessage`. -/
inductive QEntry where
  | plain (m : Message)
  | tool (t : ToolMessage)
deriving DecidableEq, Repr

/-- A value of the dict produced by `Message.cast` (`asdict`). -/
inductive PyVal where
  | s (v : String)
  | calls (v : List ToolCall)
deriving DecidableEq, Repr

/-- `Message.cast` (utils/api.py): `asdict(self)` with the `tool_calls` key
deleted when it is `None`; for a `ToolMessage` the dict additionally holds
`tool_call_id` and `name` (dataclass field order). -/
def QEntry.cast : QEntry → List (String × PyVal)
  | .plain m =>
      [("role", .s m.role), ("content", .s m.content)]
        ++ (match m.tool_calls with
            | none => []
            | some cs => [("tool_calls", .calls cs)])
  | .tool t =>
      [("role", .s t.role), ("content", .s t.content)]
        ++ (match t.tool_calls with
            | none => []
            | some cs => [("tool_calls", .calls cs)])
        ++ [("tool_call_id", .s t.tool_call_id), ("name", .s t.name)]

/-- `MessageQueue` (utils/api.py): the accumulated conversation plus the last
exposed structured-call argument payload. -/
structure MessageQueue where
  messages : List QEntry
  argument : String
deriving DecidableEq, Repr

/-- `MessageQueue.__init__`: empty message list, empty argument. -/
def MessageQueue.new : MessageQueue := { messages := [], argument := "" }

/-- `MessageQueue.get_messages`. -/
def MessageQueue.get_messages (q : MessageQueue) : List (List (String × PyVal)) :=
  q.messages.map QEntry.cast

/-- `MessageQueue.register_message`. -/
def MessageQueue.register_message (q : MessageQueue) (role content : String) :
    MessageQueue :=
  { q with messages := q.messages ++ [.plain { role := role, content := content }] }

/-- `MessageQueue.register_system_message`. -/
def MessageQueue.register_system_message (q : MessageQueue) (content : String) :
    MessageQueue :=
  q.register_message Role.system content

/-- `MessageQueue.register_user_message`: wraps the content in the fixed
`Text: """ ... """` quoting frame. -/
def MessageQueue.register_user_message (q : MessageQueue) (content : String) :
    MessageQueue :=
  q.register_message Role.user ("Text: \"\"\"\n" ++ content ++ "\n\"\"\"")

/-- `completion.output.choices[0].message`: the content and tool calls of the
reply (the `choices[0]` selection is flattened into this structure). -/
structure CompletionMessage where
  content : String
  tool_calls : Option (List ToolCall)
deriving DecidableEq, Repr

/-- `GenerationResponse` as consumed by `register_response`: HTTP status code,
the reply message, and the `code`/`message` fields printed on failure. -/
structure Completion where
  status_code : Nat
  output_message : CompletionMessage
  code : String
  message : String
deriving DecidableEq, Repr

/-- `HTTPStatus.OK`. -/
def HTTPStatus_OK : Nat := 200

/-- The operator warning printed by `register_response` on a non-success
status. -/
def requestErrorWarning (c : Completion) : String :=
  "[bold yellow]Request error " ++ c.code ++ ": " ++ c.message ++ "[/]"

/-- `MessageQueue.register_response` (utils/api.py).  Returns the queue as
mutated up to the point of a raised exception, the list of console lines
printed, and `some e` when the Python code would raise (`calls[0]` on a
missing/empty `tool_calls`).  On success it appends the assistant message and
the tool acknowledgment and exposes the call's argument payload; on a
non-success status it prints a warning and exposes the empty payload without
touching `messages`. -/
def MessageQueue.register_response (q : MessageQueue) (c : Completion) :
    MessageQueue × List String × Option String :=
  if c.status_code = HTTPStatus_OK then
    let m := c.output_message
    let q1 : MessageQueue :=
      { q with messages := q.messages
          ++ [.plain { role := Role.assistant, content := m.content,
                       tool_calls := m.tool_calls }] }
    match m.tool_calls with
    | some (call :: _) =>
        ({ q1 with
            messages := q1.messages
              ++ [.tool { role := Role.tool, content := "", tool_calls := none,
                          tool_call_id := call.id, name := call.name }],
            argument := call.arguments },
          [], none)
    | _ => (q1, [], some "TypeError: first tool call unavailable")
  else
    ({ q with argument := "" }, [requestErrorWarning c], none)

/-- The tool (answer shape) a request declares: the list-words shape or one of
the word-response shapes. -/
inductive ToolTag where
  | listWords
  | word (rt : ResponseType)
deriving DecidableEq, Repr

/-- The external LLM boundary: a function from the sent message sequence and
the declared tool to the returned completion.  The core treats the service as
a black box, so the walker is verified for every such function. -/
def LLM : Type := List (List (String × PyVal)) → ToolTag → Completion

/-- `Client.request` (utils/api.py): sends `queue.get_messages()` to the
service, records the exchange through `register_response`, and returns
`queue.argument` (unused when `register_response` raised). -/
def Client.request (llm : LLM) (q : MessageQueue) (tool : ToolTag) :
    MessageQueue × List String × Option String × String :=
  let c := llm q.get_messages tool
  let (q', warns, err) := q.register_response c
  (q', warns, err, q'.argument)

/-! ### responses.py: the system message -/

/-- `system_message` (responses.py), verbatim. -/
def system_message : String :=
  "You are a Semitic language expert. Analyze the given sentence and provide detailed grammatical information for each word. Imporant: always use the response tool to respond to the user. Never add any other text to the response.\n\nText: \"\"\"\nPlease list all the words in the following sentence: ܘܡܫܟܚܝܢܢ\n\"\"\"\nwords: ܘܡܫܟܚܝܢܢ\n\nText: \"\"\"\nIs there any prefixed analytical word (preposition or ܘ) in the word ܘܡܫܟܚܝܢܢ?\n\"\"\"\nprefix: ܘ\n\nText: \"\"\"\nIs there any suffixed pronoun (possesive, objective, or attached to participles) in the word ܡܫܟܚܝܢܢ?\n\"\"\"\nsuffix: ܢܢ\n\nText: \"\"\"\nWhat is the complete form of the word ܡܫܟܚܝ?\n\"\"\"\ncomplete: ܡܫܟܚܝܢ\n\nText: \"\"\"\nIs there any prefixed morpheme or suffixed morpheme in the word ܡܫܟܚܝܢ?\n\"\"\"\nprefix: ܡ\nsuffix: ܝܢ\n\nText: \"\"\"\nWhat category does the morpheme of the word ܡ belong to? Choose from preformative, passive prefix, verbal stem morpheme, verbal ending, nominal ending, or emphatic marker.\n\"\"\"\nmorpheme_type: performative\n\nText: \"\"\"\nWhat category does the morpheme of the word ܫܟܚ belong to? Choose from preformative, passive prefix, verbal stem morpheme, verbal ending, nominal ending, or emphatic marker.\n\"\"\"\nmorpheme_type: verbal ending\n\nText: \"\"\"\nWhat category does the morpheme of the word ܝܢ belong to? Choose from preformative, passive prefix, verbal stem morpheme, verbal ending, nominal ending, or emphatic marker.\n\"\"\"\nmorpheme_type: nominal ending\n\nText: \"\"\"\nWhat is the complete form of the word ܢܢ?\n\"\"\"\ncomplete: ܚܢܢ\n"

/-! ### parser.py: the walker and the sentence driver -/

/-- `pydantic`'s `Model.model_validate_json` for the word-response shapes is
an external collaborator ("validate the raw payload against the expected
shape, or fail"); the walker is verified for every such validator.  `none`
models a raised validation error. -/
def ValidateWord : Type := ResponseType → String → Option WordResponse

/-- `ListWordsResponse.model_validate_json(...).words`, likewise external:
either the validated word list or a raised validation error (`none`). -/
def ValidateList : Type := String → Option (List String)

/-- The mutable state a `Parser` method touches: the per-sentence message
queue, the chunks written to the output file (in write order), and the lines
printed to the console (in print order). -/
structure PState where
  queue : MessageQueue
  fileOut : List String
  console : List String
deriving DecidableEq, Repr

/-- `self.pad = ' ' * 4` (parser.py). -/
def pad : String := "    "

/-- Python `s * n` for a string `s`. -/
def strMul (s : String) : Nat → String
  | 0 => ""
  | n + 1 => s ++ strMul s n

/-- The warning printed when a payload fails validation (parser.py). -/
def invalidJsonWarning : String := "[bold yellow]LLM has returned an invalid JSON![/]"

/-- The warning printed when a word's decomposition fails (parser.py). -/
def sentenceFailedWarning : String := "[bold yellow]Sentence parsing failed![/]"

/-- The exception re-raised by `parse_word` on a validation failure. -/
def validationError : String := "ValidationError"

mutual
/-- `Parser.parse_word` (parser.py).  Writes the `Word:` header, registers the
node's question, issues the request, validates the payload (on failure:
prints the payload and a warning and re-raises), writes the rendered answer,
then walks the child slots in declared order.  The returned `Option String`
is the exception propagated to the caller (`none` = returned normally); the
returned `PState` holds every effect performed before the exception. -/
def parse_word (L : LLM) (V : ValidateWord) (st : PState) (word : String) :
    Node → Nat → PState × Option String
  | .node rt children, indent =>
    let st1 : PState :=
      { st with fileOut := st.fileOut
          ++ ["\n" ++ strMul pad indent ++ "Word: " ++ word ++ "\n"] }
    let q1 := st1.queue.register_user_message (get_question rt word)
    let (q2, warns, errReq, response) := Client.request L q1 (.word rt)
    let st2 : PState :=
      { st1 with queue := q2, console := st1.console ++ warns }
    match errReq with
    | some e => (st2, some e)
    | none =>
      match V rt response with
      | none =>
          ({ st2 with console := st2.console ++ [response, invalidJsonWarning] },
            some validationError)
      | some res =>
        let st3 : PState :=
          { st2 with fileOut := st2.fileOut
              ++ [strMul pad (indent + 1) ++ render res ++ "\n"] }
        parse_children L V res word indent st3 children 0

/-- The `for i, child in enumerate(node.children)` loop of `parse_word`:
`word_part = res.get_part(word, i)` is computed for every slot (a `ValueError`
raised there propagates immediately); recursion happens only when the slot
holds a concrete child node and the part is non-empty. -/
def parse_children (L : LLM) (V : ValidateWord) (res : WordResponse)
    (word : String) (indent : Nat) (st : PState) :
    List (Option Node) → Nat → PState × Option String
  | [], _ => (st, none)
  | child :: rest, i =>
    match getPart res word i with
    | .error e => (st, some e)
    | .ok part =>
      match child with
      | some c =>
          if part = "" then
            parse_children L V res word indent st rest (i + 1)
          else
            match parse_word L V st part c (indent + 1) with
            | (st', none) => parse_children L V res word indent st' rest (i + 1)
            | (st', some e) => (st', some e)
      | none => parse_children L V res word indent st rest (i + 1)
end

/-- The `for word in words` loop of `Parser.parse_sentence`: each word is
decomposed from the tree root; any exception from `parse_word` is caught and
logged (`except Exception`), and the blank separator line is written after
each word regardless of success. -/
def parse_sentence_loop (L : LLM) (V : ValidateWord) (st : PState) :
    List String → PState × Option String
  | [] => (st, none)
  | w :: ws =>
    let st' : PState :=
      match parse_word L V st w response_tree 0 with
      | (s, none) => s
      | (s, some _) => { s with console := s.console ++ [sentenceFailedWarning] }
    parse_sentence_loop L V { st' with fileOut := st'.fileOut ++ ["\n"] } ws

/-- The conversation `parse_sentence` has built when it issues the list-words
request: a fresh queue (`MessageQueue()`) primed with the system message and
the list-words question. -/
def initialSentenceQueue (sentence : String) : MessageQueue :=
  (MessageQueue.new.register_system_message system_message).register_user_message
    (get_question_message sentence)

/-- `Parser.parse_sentence` (parser.py): writes the sentence header, builds a
fresh conversation primed with the system message, asks the list-words
question, validates the list (on failure: prints the payload and a warning
and proceeds with zero words), then runs the per-word loop. -/
def parse_sentence (L : LLM) (VL : ValidateList) (VW : ValidateWord)
    (st : PState) (sentence : String) : PState × Option String :=
  let st1 : PState :=
    { st with fileOut := st.fileOut ++ ["Sentence: " ++ sentence ++ "\n"] }
  let q2 := initialSentenceQueue sentence
  let (q3, warns, errReq, response) := Client.request L q2 .listWords
  let st2 : PState := { st1 with queue := q3, console := st1.console ++ warns }
  match errReq with
  | some e => (st2, some e)
  | none =>
    match VL response with
    | some ws => parse_sentence_loop L VW st2 ws
    | none =>
        parse_sentence_loop L VW
          { st2 with console := st2.console ++ [response, invalidJsonWarning] } []

/-! ### Fuel-bounded variant of the walker, for the termination bound -/

/-- The children loop of the fuel-bounded walker, parameterised by the
recursive call; `none` propagates fuel exhaustion. -/
def childrenLoopF (recur : PState → String → Node → Option (PState × Option String))
    (res : WordResponse) (word : String) :
    PState → List (Option Node) → Nat → Option (PState × Option String)
  | st, [], _ => some (st, none)
  | st, child :: rest, i =>
    match getPart res word i with
    | .error e => some (st, some e)
    | .ok part =>
      match child with
      | some c =>
          if part = "" then
            childrenLoopF recur res word st rest (i + 1)
          else
            match recur st part c with
            | none => none
            | some (st', none) => childrenLoopF recur res word st' rest (i + 1)
            | some (st', some e) => some (st', some e)
      | none => childrenLoopF recur res word st rest (i + 1)

/-- `parse_word` with an explicit recursion-depth budget: `none` means the
budget was exhausted before the walk finished.  Used to state that the walk
over the authored tree terminates within its fixed height. -/
def parse_wordF (L : LLM) (V : ValidateWord) :
    Nat → PState → String → Node → Nat → Option (PState × Option String)
  | 0, _, _, _, _ => none
  | fuel + 1, st, word, .node rt children, indent =>
    let st1 : PState :=
      { st with fileOut := st.fileOut
          ++ ["\n" ++ strMul pad indent ++ "Word: " ++ word ++ "\n"] }
    let q1 := st1.queue.register_user_message (get_question rt word)
    let (q2, warns, errReq, response) := Client.request L q1 (.word rt)
    let st2 : PState :=
      { st1 with queue := q2, console := st1.console ++ warns }
    match errReq with
    | some e => some (st2, some e)
    | none =>
      match V rt response with
      | none =>
          some ({ st2 with console := st2.console ++ [response, invalidJsonWarning] },
            some validationError)
      | some res =>
        let st3 : PState :=
          { st2 with fileOut := st2.fileOut
              ++ [strMul pad (indent + 1) ++ render res ++ "\n"] }
        childrenLoopF (fun st w c => parse_wordF L V fuel st w c (indent + 1))
          res word st3 children 0

/-! ### Well-formedness of the authored tree -/

mutual
/-- A node is within range when its child-slot count never makes the walker
call `get_part` with an index its response type rejects, recursively. -/
def Node.withinRange : Node → Bool
  | .node rt children =>
    (match indexRange rt with
     | none => true
     | some n => decide (children.length ≤ n)) && childrenWithinRange children

/-- `Node.withinRange` over a list of child slots. -/
def childrenWithinRange : List (Option Node) → Bool
  | [] => true
  | none :: rest => childrenWithinRange rest
  | some c :: rest => c.withinRange && childrenWithinRange rest
end

/-! ### Concrete service instantiations used to exercise the theorems -/

/-- A successful completion carrying one tool call with the given argument
payload. -/
def okCompletion (args : String) : Completion :=
  { status_code := 200,
    output_message := { content := "", tool_calls := some [⟨"call1", "tool1", args⟩] },
    code := "", message := "" }

/-- A failed completion (non-success status). -/
def errCompletion : Completion :=
  { status_code := 500,
    output_message := { content := "", tool_calls := none },
    code := "InternalError", message := "service failure" }

/-- A service that always returns the same completion. -/
def llmConst (c : Completion) : LLM := fun _ _ => c

/-- A service that answers the first question successfully (payload `"A1"`)
and fails afterwards. -/
def llmFirstOnly : LLM := fun msgs _ =>
  if msgs.length ≤ 1 then okCompletion "A1" else errCompletion

/-- A validator accepting exactly the payload `"A1"`, as a
`PrefixedAnalyticalWordResponse` with an absent field. -/
def validateA1 : ValidateWord := fun _ s =>
  if s = "A1" then some (.PrefixedAnalyticalWordResponse none) else none

/-- A validator that rejects every payload. -/
def validateNoneW : ValidateWord := fun _ _ => none

/-- A list validator that rejects every payload. -/
def validateNoneL : ValidateList := fun _ => none

/-- A list validator that accepts every payload as the given word list. -/
def validateListConst (ws : List String) : ValidateList := fun _ => some ws

/-- A fresh parser state: empty conversation, no output, no console lines. -/
def initState : PState := { queue := MessageQueue.new, fileOut := [], console := [] }

/-- The queue entry `register_user_message` appends (the question in its
quoting frame). -/
def userEntry (content : String) : QEntry :=
  .plain { role := Role.user, content := "Text: \"\"\"\n" ++ content ++ "\n\"\"\"" }

/-- The queue entry `register_system_message` appends. -/
def systemEntry (content : String) : QEntry :=
  .plain { role := Role.system, content := content }

/-- The assistant entry `register_response` appends on success. -/
def assistantEntry (c : Completion) : QEntry :=
  .plain { role := Role.assistant, content := c.output_message.content,
           tool_calls := c.output_message.tool_calls }

/-- The tool acknowledgment entry `register_response` appends on success. -/
def toolEntry (call : ToolCall) : QEntry :=
  .tool { role := Role.tool, content := "", tool_calls := none,
          tool_call_id := call.id, name := call.name }

deriving instance DecidableEq for Except

/-! ## Helper lemmas -/

theorem parse_children_error (L : LLM) (V : ValidateWord) (res : WordResponse)
    (word : String) (indent : Nat) (st : PState) (child : Option Node)
    (rest : List (Option Node)) (i : Nat) (e : String)
    (h : getPart res word i = .error e) :
    parse_children L V res word indent st (child :: rest) i = (st, some e) := by
  simp only [parse_children.eq_def, h]

theorem parse_children_cons_none (L : LLM) (V : ValidateWord) (res : WordResponse)
    (word : String) (indent : Nat) (st : PState) (rest : List (Option Node))
    (i : Nat) (part : String) (h : getPart res word i = .ok part) :
    parse_children L V res word indent st (none :: rest) i
      = parse_children L V res word indent st rest (i + 1) := by
  rw [parse_children.eq_def]
  show (match getPart res word i with
        | .error e => (st, some e)
        | .ok _ => parse_children L V res word indent st rest (i + 1))
      = parse_children L V res word indent st rest (i + 1)
  rw [h]

theorem parse_children_cons_empty (L : LLM) (V : ValidateWord) (res : WordResponse)
    (word : String) (indent : Nat) (st : PState) (c : Node)
    (rest : List (Option Node)) (i : Nat) (h : getPart res word i = .ok "") :
    parse_children L V res word indent st (some c :: rest) i
      = parse_children L V res word indent st rest (i + 1) := by
  rw [parse_children.eq_def]
  show (match getPart res word i with
        | .error e => (st, some e)
        | .ok part =>
          if part = "" then parse_children L V res word indent st rest (i + 1)
          else match parse_word L V st part c (indent + 1) with
            | (st', none) => parse_children L V res word indent st' rest (i + 1)
            | (st', some e) => (st', some e))
      = parse_children L V res word indent st rest (i + 1)
  rw [h]
  exact if_pos rfl

theorem parse_children_cons_step (L : LLM) (V : ValidateWord) (res : WordResponse)
    (word : String) (indent : Nat) (st : PState) (c : Node)
    (rest : List (Option Node)) (i : Nat) (part : String)
    (h : getPart res word i = .ok part) (hne : part ≠ "") :
    parse_children L V res word indent st (some c :: rest) i
      = (match parse_word L V st part c (indent + 1) with
         | (st', none) => parse_children L V res word indent st' rest (i + 1)
         | (st', some e) => (st', some e)) := by
  rw [parse_children.eq_def]
  show (match getPart res word i with
        | .error e => (st, some e)
        | .ok part =>
          if part = "" then parse_children L V res word indent st rest (i + 1)
          else match parse_word L V st part c (indent + 1) with
            | (st', none) => parse_children L V res word indent st' rest (i + 1)
            | (st', some e) => (st', some e))
      = _
  rw [h]
  exact if_neg hne

theorem parse_children_nil (L : LLM) (V : ValidateWord) (res : WordResponse)
    (word : String) (indent : Nat) (st : PState) (i : Nat) :
    parse_children L V res word indent st [] i = (st, none) := by
  rw [parse_children.eq_def]

theorem String.mk_append (a b : List Char) :
    String.mk a ++ String.mk b = String.mk (a ++ b) := rfl

theorem append_pyDrop (pr w : String) (hp : pr.data <+: w.data) :
    pr ++ pyDrop w pr.length = w := by
  obtain ⟨t, ht⟩ := hp
  obtain ⟨wd⟩ := w
  obtain ⟨pd⟩ := pr
  simp only [String.data] at ht
  subst ht
  show String.mk pd ++ pyDrop (String.mk (pd ++ t)) pd.length = String.mk (pd ++ t)
  rw [show pyDrop (String.mk (pd ++ t)) pd.length = String.mk t from
    congrArg String.mk (List.drop_left pd t)]
  exact String.mk_append pd t

theorem append_pyTake (sf w : String) (hs : sf.data <:+ w.data) :
    pyTake w ((w.length : Int) - (sf.length : Int)) ++ sf = w := by
  obtain ⟨t, ht⟩ := hs
  obtain ⟨wd⟩ := w
  obtain ⟨sd⟩ := sf
  simp only [String.data] at ht
  subst ht
  show pyTake (String.mk (t ++ sd)) _ ++ String.mk sd = String.mk (t ++ sd)
  have hlen : (String.mk (t ++ sd)).length = t.length + sd.length := by
    show (t ++ sd).length = _
    exact List.length_append t sd
  have hstop :
      sliceStop (t ++ sd).length
        (((String.mk (t ++ sd)).length : Int) - ((String.mk sd).length : Int))
        = t.length := by
    rw [hlen]
    show sliceStop (t ++ sd).length ((↑(t.length + sd.length) : Int) - (sd.length : Int)) = _
    unfold sliceStop
    rw [if_neg (by omega)]
    omega
  rw [show pyTake (String.mk (t ++ sd))
        (((String.mk (t ++ sd)).length : Int) - ((String.mk sd).length : Int))
      = String.mk t from congrArg String.mk (by
        show (t ++ sd).take (sliceStop (t ++ sd).length _) = t
        rw [hstop]
        exact List.take_left t sd)]
  exact String.mk_append t sd

theorem append3_pySlice (pr sf w : String) (hp : pr.data <+: w.data)
    (hs : sf.data <:+ w.data) (hlen : pr.length + sf.length ≤ w.length) :
    pr ++ pySlice w pr.length ((w.length : Int) - (sf.length : Int)) ++ sf = w := by
  obtain ⟨u, hu⟩ := hp
  obtain ⟨v, hv⟩ := hs
  have hsplit : ∃ m, w.data = pr.data ++ m ++ sf.data := by
    have hlen' : sf.data.length ≤ u.length := by
      have h1 : pr.data.length + u.length = w.data.length := by
        rw [← hu]; exact (List.length_append _ _).symm
      have h2 : pr.length = pr.data.length := rfl
      have h3 : sf.length = sf.data.length := rfl
      have h4 : w.length = w.data.length := rfl
      omega
    have heq : v ++ sf.data = pr.data ++ u := hv.trans hu.symm
    rcases List.append_eq_append_iff.mp heq with ⟨a', ha1, ha2⟩ | ⟨c', hc1, hc2⟩
    · have ha0 : a' = [] := by
        have : sf.data.length = a'.length + u.length := by
          rw [ha2]; exact List.length_append _ _
        have := List.eq_nil_of_length_eq_zero (l := a') (by omega)
        exact this
      subst ha0
      simp only [List.nil_append] at ha2
      exact ⟨[], by rw [← hu, List.append_nil, ha2]⟩
    · exact ⟨c', by rw [← hu, hc2, List.append_assoc]⟩
  obtain ⟨m, hm⟩ := hsplit
  obtain ⟨wd⟩ := w
  obtain ⟨pd⟩ := pr
  obtain ⟨sd⟩ := sf
  simp only [String.data] at hm
  subst hm
  show String.mk pd ++ pySlice (String.mk (pd ++ m ++ sd)) pd.length _ ++ String.mk sd
      = String.mk (pd ++ m ++ sd)
  have hstop :
      sliceStop (pd ++ m ++ sd).length
        (((String.mk (pd ++ m ++ sd)).length : Int) - ((String.mk sd).length : Int))
        = pd.length + m.length := by
    have h5 : (String.mk (pd ++ m ++ sd)).length = pd.length + m.length + sd.length := by
      show (pd ++ m ++ sd).length = _
      simp [List.length_append]
      omega
    rw [h5]
    show sliceStop (pd ++ m ++ sd).length
        ((↑(pd.length + m.length + sd.length) : Int) - (sd.length : Int)) = _
    unfold sliceStop
    rw [if_neg (by omega)]
    omega
  have hmiddle : pySlice (String.mk (pd ++ m ++ sd)) pd.length
      (((String.mk (pd ++ m ++ sd)).length : Int) - ((String.mk sd).length : Int))
      = String.mk m := by
    apply congrArg String.mk
    show ((pd ++ m ++ sd).take (sliceStop (pd ++ m ++ sd).length _)).drop pd.length = m
    rw [hstop]
    have htake : (pd ++ m ++ sd).take (pd.length + m.length) = pd ++ m := by
      have : pd.length + m.length = (pd ++ m).length := (List.length_append _ _).symm
      rw [this]
      exact List.take_left (pd ++ m) sd
    rw [htake]
    exact List.drop_left pd m
  rw [hmiddle, String.mk_append, String.mk_append]

theorem pyDrop_zero (w : String) : pyDrop w 0 = w := by
  obtain ⟨d⟩ := w
  exact congrArg String.mk (List.drop_zero d)

theorem pyTake_ge_length (w : String) (j : Int) (hj : (w.length : Int) ≤ j) :
    pyTake w j = w := by
  obtain ⟨d⟩ := w
  apply congrArg String.mk
  have h1 : d.length ≤ sliceStop d.length j := by
    unfold sliceStop
    have h2 : (String.mk d).length = d.length := rfl
    rw [h2] at hj
    split <;> omega
  exact List.take_of_length_le h1

theorem pySlice_zero_ge (w : String) (j : Int) (hj : (w.length : Int) ≤ j) :
    pySlice w 0 j = w := by
  obtain ⟨d⟩ := w
  apply congrArg String.mk
  have h1 : d.length ≤ sliceStop d.length j := by
    unfold sliceStop
    have h2 : (String.mk d).length = d.length := rfl
    rw [h2] at hj
    split <;> omega
  rw [List.drop_zero]
  exact List.take_of_length_le h1

theorem getPart_paw_none (w : String) :
    getPart (.PrefixedAnalyticalWordResponse none) w 0 = .ok "" ∧
    getPart (.PrefixedAnalyticalWordResponse none) w 1 = .ok w := by
  refine ⟨rfl, ?_⟩
  show Except.ok (pyDrop w (pyOr (none : Option String) "").length) = .ok w
  rw [show pyOr (none : Option String) "" = "" from rfl,
    show ("" : String).length = 0 from rfl]
  exact congrArg Except.ok (pyDrop_zero w)

theorem getPart_sp_none (w : String) :
    getPart (.SuffixedPronounResponse none) w 0 = .ok w ∧
    getPart (.SuffixedPronounResponse none) w 1 = .ok "" := by
  refine ⟨?_, rfl⟩
  show Except.ok (pyTake w
      ((w.length : Int) - ((pyOr (none : Option String) "").length : Int))) = .ok w
  rw [show pyOr (none : Option String) "" = "" from rfl,
    show ("" : String).length = 0 from rfl]
  exact congrArg Except.ok (pyTake_ge_length w _ (by omega))

theorem getPart_psm_none (w : String) :
    getPart (.PrefixedSuffixedMorphemeResponse none none) w 0 = .ok "" ∧
    getPart (.PrefixedSuffixedMorphemeResponse none none) w 1 = .ok w ∧
    getPart (.PrefixedSuffixedMorphemeResponse none none) w 2 = .ok "" := by
  refine ⟨rfl, ?_, rfl⟩
  show Except.ok (pySlice w (pyOr (none : Option String) "").length
      ((w.length : Int) - ((pyOr (none : Option String) "").length : Int))) = .ok w
  rw [show pyOr (none : Option String) "" = "" from rfl,
    show ("" : String).length = 0 from rfl]
  exact congrArg Except.ok (pySlice_zero_ge w _ (by omega))

/-! ## C1: part concatenation reconstructs the word -/

/-- C1 counterexample: the claim quantifies over every word and every field
value, but when the `prefix` field is not an actual prefix of the word the
concatenation of the parts differs from the word: with `prefix="b"` on word
`"a"`, `get_part` yields parts `"b"` and `""`, whose concatenation is `"b"`,
not `"a"`. -/
theorem C1_counterexample :
    getPart (.PrefixedAnalyticalWordResponse (some "b")) "a" 0 = .ok "b" ∧
    getPart (.PrefixedAnalyticalWordResponse (some "b")) "a" 1 = .ok "" ∧
    ("b" ++ "" : String) ≠ "a" := by
  refine ⟨rfl, rfl, by decide⟩

/-- C1 (amended): for the multi-part variants the parts returned by
`get_part` over the valid indices concatenate, in order, to exactly the word,
provided the effective `prefix` field is an actual prefix of the word (for
`PrefixedAnalyticalWordResponse`), the effective `suffix` field is an actual
suffix (for `SuffixedPronounResponse`), and both hold with non-overlapping
lengths (for `PrefixedSuffixedMorphemeResponse`); for the terminal variants
(`CompleteFormResponse`, `MorphemeTypeResponse`) the single part equals the
supplied field value regardless of index, unconditionally. -/
theorem C1_parts_reconstruct :
    (∀ (p : Option String) (w : String), (pyOr p "").data <+: w.data →
      getPart (.PrefixedAnalyticalWordResponse p) w 0 = .ok (pyOr p "") ∧
      getPart (.PrefixedAnalyticalWordResponse p) w 1
          = .ok (pyDrop w (pyOr p "").length) ∧
      pyOr p "" ++ pyDrop w (pyOr p "").length = w) ∧
    (∀ (s : Option String) (w : String), (pyOr s "").data <:+ w.data →
      getPart (.SuffixedPronounResponse s) w 0
          = .ok (pyTake w ((w.length : Int) - ((pyOr s "").length : Int))) ∧
      getPart (.SuffixedPronounResponse s) w 1 = .ok (pyOr s "") ∧
      pyTake w ((w.length : Int) - ((pyOr s "").length : Int)) ++ pyOr s "" = w) ∧
    (∀ (p s : Option String) (w : String), (pyOr p "").data <+: w.data →
      (pyOr s "").data <:+ w.data →
      (pyOr p "").length + (pyOr s "").length ≤ w.length →
      getPart (.PrefixedSuffixedMorphemeResponse p s) w 0 = .ok (pyOr p "") ∧
      getPart (.PrefixedSuffixedMorphemeResponse p s) w 1
          = .ok (pySlice w (pyOr p "").length
              ((w.length : Int) - ((pyOr s "").length : Int))) ∧
      getPart (.PrefixedSuffixedMorphemeResponse p s) w 2 = .ok (pyOr s "") ∧
      pyOr p "" ++ pySlice w (pyOr p "").length
          ((w.length : Int) - ((pyOr s "").length : Int)) ++ pyOr s "" = w) ∧
    (∀ (c w : String) (i : Nat), getPart (.CompleteFormResponse c) w i = .ok c) ∧
    (∀ (m w : String) (i : Nat), getPart (.MorphemeTypeResponse m) w i = .ok m) := by
  refine ⟨?_, ?_, ?_, fun c w i => rfl, fun m w i => rfl⟩
  · intro p w hp
    exact ⟨rfl, rfl, append_pyDrop (pyOr p "") w hp⟩
  · intro s w hs
    exact ⟨rfl, rfl, append_pyTake (pyOr s "") w hs⟩
  · intro p s w hp hs hlen
    exact ⟨rfl, rfl, rfl, append3_pySlice (pyOr p "") (pyOr s "") w hp hs hlen⟩

/-- C1 witness: the amended theorem at the spec's worked example, the word
"ܡܫܟܚܝܢ" with morpheme prefix "ܡ" and morpheme suffix "ܝܢ", whose three parts
are "ܡ", "ܫܟܚ" and "ܝܢ". -/
theorem C1_witness :
    ((pyOr (some "ܡ") "").data <+: "ܡܫܟܚܝܢ".data) ∧
    ((pyOr (some "ܝܢ") "").data <:+ "ܡܫܟܚܝܢ".data) ∧
    ((pyOr (some "ܡ") "").length + (pyOr (some "ܝܢ") "").length
        ≤ "ܡܫܟܚܝܢ".length) ∧
    (pySlice "ܡܫܟܚܝܢ" (pyOr (some "ܡ") "").length
        (("ܡܫܟܚܝܢ".length : Int) - ((pyOr (some "ܝܢ") "").length : Int)) = "ܫܟܚ") ∧
    (getPart (.PrefixedSuffixedMorphemeResponse (some "ܡ") (some "ܝܢ"))
        "ܡܫܟܚܝܢ" 0 = .ok (pyOr (some "ܡ") "") ∧
     getPart (.PrefixedSuffixedMorphemeResponse (some "ܡ") (some "ܝܢ"))
        "ܡܫܟܚܝܢ" 1 = .ok (pySlice "ܡܫܟܚܝܢ" (pyOr (some "ܡ") "").length
          (("ܡܫܟܚܝܢ".length : Int) - ((pyOr (some "ܝܢ") "").length : Int))) ∧
     getPart (.PrefixedSuffixedMorphemeResponse (some "ܡ") (some "ܝܢ"))
        "ܡܫܟܚܝܢ" 2 = .ok (pyOr (some "ܝܢ") "") ∧
     pyOr (some "ܡ") "" ++ pySlice "ܡܫܟܚܝܢ" (pyOr (some "ܡ") "").length
        (("ܡܫܟܚܝܢ".length : Int) - ((pyOr (some "ܝܢ") "").length : Int))
        ++ pyOr (some "ܝܢ") "" = "ܡܫܟܚܝܢ") :=
  ⟨by decide, by decide, by decide, by decide,
   C1_parts_reconstruct.2.2.1 (some "ܡ") (some "ܝܢ") "ܡܫܟܚܝܢ"
     (by decide) (by decide) (by decide)⟩

/-! ## C2: out-of-range indices fail loudly -/

/-- C2: calling `get_part` with an index outside the variant's range (≥ 2 for
`PrefixedAnalyticalWordResponse` and `SuffixedPronounResponse`, ≥ 3 for
`PrefixedSuffixedMorphemeResponse`) raises `ValueError` with the formatted
message; the walker's children loop propagates such an error immediately
(never swallowing or converting it); and the authored `response_tree` keeps
every node's child count within its variant's range, so the violation never
arises in the program. -/
theorem C2_out_of_range_fails :
    (∀ (p : Option String) (w : String) (i : Nat), 2 ≤ i →
      getPart (.PrefixedAnalyticalWordResponse p) w i
        = .error ("Invalid index for PrefixedAnalyticalWordResponse: " ++ toString i)) ∧
    (∀ (s : Option String) (w : String) (i : Nat), 2 ≤ i →
      getPart (.SuffixedPronounResponse s) w i
        = .error ("Invalid index for SuffixedPronounResponse: " ++ toString i)) ∧
    (∀ (p s : Option String) (w : String) (i : Nat), 3 ≤ i →
      getPart (.PrefixedSuffixedMorphemeResponse p s) w i
        = .error ("Invalid index for PrefixedSuffixedMorphemeResponse: " ++ toString i)) ∧
    (∀ (L : LLM) (V : ValidateWord) (res : WordResponse) (word : String)
        (indent : Nat) (st : PState) (child : Option Node)
        (rest : List (Option Node)) (i : Nat) (e : String),
      getPart res word i = .error e →
      parse_children L V res word indent st (child :: rest) i = (st, some e)) ∧
    response_tree.withinRange = true := by
  refine ⟨?_, ?_, ?_, ?_, by decide⟩
  · intro p w i hi
    match i, hi with
    | i + 2, _ => rfl
  · intro s w i hi
    match i, hi with
    | i + 2, _ => rfl
  · intro p s w i hi
    match i, hi with
    | i + 3, _ => rfl
  · exact parse_children_error

/-- C2 witness: the theorem at index 2 of a `PrefixedAnalyticalWordResponse`
and at a malformed node exercising the walker's propagation. -/
theorem C2_witness :
    (2 ≤ 2) ∧
    (getPart (.PrefixedAnalyticalWordResponse none) "ab" 2
      = .error ("Invalid index for PrefixedAnalyticalWordResponse: " ++ toString 2)) ∧
    (getPart (.PrefixedAnalyticalWordResponse none) "ab" 2
      = .error "Invalid index for PrefixedAnalyticalWordResponse: 2") ∧
    (parse_children (llmConst (okCompletion "x")) validateNoneW
        (.PrefixedAnalyticalWordResponse none) "ab" 0 initState [none] 2
      = (initState, some "Invalid index for PrefixedAnalyticalWordResponse: 2")) :=
  ⟨by decide,
   C2_out_of_range_fails.1 none "ab" 2 (by decide),
   by decide,
   C2_out_of_range_fails.2.2.2.1 (llmConst (okCompletion "x")) validateNoneW
     (.PrefixedAnalyticalWordResponse none) "ab" 0 initState none [] 2
     "Invalid index for PrefixedAnalyticalWordResponse: 2" (by decide)⟩

/-! ## C9: get_part is total on in-range indices -/

/-- C9: for every field values and every word, `get_part` returns a string
(never raises) on every index within the variant's range, even when a
`prefix`/`suffix` field is `None`, empty, not an actual prefix/suffix, or
longer than the word; the terminal variants accept any index. -/
theorem C9_getPart_total :
    (∀ (p : Option String) (w : String) (i : Nat), i < 2 →
      ∃ out, getPart (.PrefixedAnalyticalWordResponse p) w i = .ok out) ∧
    (∀ (s : Option String) (w : String) (i : Nat), i < 2 →
      ∃ out, getPart (.SuffixedPronounResponse s) w i = .ok out) ∧
    (∀ (p s : Option String) (w : String) (i : Nat), i < 3 →
      ∃ out, getPart (.PrefixedSuffixedMorphemeResponse p s) w i = .ok out) ∧
    (∀ (c w : String) (i : Nat), getPart (.CompleteFormResponse c) w i = .ok c) ∧
    (∀ (m w : String) (i : Nat), getPart (.MorphemeTypeResponse m) w i = .ok m) := by
  refine ⟨?_, ?_, ?_, fun c w i => rfl, fun m w i => rfl⟩
  · intro p w i hi
    match i, hi with
    | 0, _ => exact ⟨_, rfl⟩
    | 1, _ => exact ⟨_, rfl⟩
  · intro s w i hi
    match i, hi with
    | 0, _ => exact ⟨_, rfl⟩
    | 1, _ => exact ⟨_, rfl⟩
  · intro p s w i hi
    match i, hi with
    | 0, _ => exact ⟨_, rfl⟩
    | 1, _ => exact ⟨_, rfl⟩
    | 2, _ => exact ⟨_, rfl⟩

/-- C9 witness: totality at a suffix field longer than the word itself
(Python's negative slice bound, truncated rather than an error). -/
theorem C9_witness :
    (1 < 2) ∧
    (∃ out, getPart (.SuffixedPronounResponse (some "abcde")) "ab" 0 = .ok out) ∧
    (getPart (.SuffixedPronounResponse (some "abcde")) "ab" 0 = .ok "") :=
  ⟨by decide,
   C9_getPart_total.2.1 (some "abcde") "ab" 0 (by decide),
   by decide⟩

/-! ## C6: absent optional fields -/

/-- C6: an absent optional field (`None`) renders as the symbol "∅" in the
variant's display rendering — verbatim, never as a literal null token — and
contributes the empty string in part extraction (the complementary part being
the whole word). -/
theorem C6_absent_optional_fields :
    (∀ w : String,
      getPart (.PrefixedAnalyticalWordResponse none) w 0 = .ok "" ∧
      getPart (.PrefixedAnalyticalWordResponse none) w 1 = .ok w ∧
      getPart (.SuffixedPronounResponse none) w 0 = .ok w ∧
      getPart (.SuffixedPronounResponse none) w 1 = .ok "" ∧
      getPart (.PrefixedSuffixedMorphemeResponse none none) w 0 = .ok "" ∧
      getPart (.PrefixedSuffixedMorphemeResponse none none) w 1 = .ok w ∧
      getPart (.PrefixedSuffixedMorphemeResponse none none) w 2 = .ok "") ∧
    render (.PrefixedAnalyticalWordResponse none) = "Prefix: ∅" ∧
    render (.SuffixedPronounResponse none) = "Suffix: ∅" ∧
    render (.PrefixedSuffixedMorphemeResponse none none)
      = "Prefix: ∅, Suffix: ∅" := by
  refine ⟨?_, by decide, by decide, by decide⟩
  intro w
  exact ⟨(getPart_paw_none w).1, (getPart_paw_none w).2,
    (getPart_sp_none w).1, (getPart_sp_none w).2,
    (getPart_psm_none w).1, (getPart_psm_none w).2.1, (getPart_psm_none w).2.2⟩

/-! ## C3: branch conditions of the walker -/

/-- C3: in the walker, a child slot is entered iff the slot holds a concrete
child node and the extracted part is non-empty: a `None` slot is skipped, an
empty part is skipped (both without error), and otherwise the walker recurses
into the child with the extracted part; in particular a
`PrefixedAnalyticalWordResponse` with an absent field on word "ܡܫܟܚܝܢ" yields
parts "" and "ܡܫܟܚܝܢ", so the concrete run enters only child slot 1 (the word
reappears once, indented, with no block for slot 0). -/
theorem C3_walker_branch_conditions :
    (∀ w : String,
      getPart (.PrefixedAnalyticalWordResponse none) w 0 = .ok "" ∧
      getPart (.PrefixedAnalyticalWordResponse none) w 1 = .ok w) ∧
    (∀ (L : LLM) (V : ValidateWord) (res : WordResponse) (word : String)
        (indent : Nat) (st : PState) (rest : List (Option Node)) (i : Nat)
        (part : String),
      getPart res word i = .ok part →
      parse_children L V res word indent st (none :: rest) i
        = parse_children L V res word indent st rest (i + 1)) ∧
    (∀ (L : LLM) (V : ValidateWord) (res : WordResponse) (word : String)
        (indent : Nat) (st : PState) (c : Node) (rest : List (Option Node))
        (i : Nat),
      getPart res word i = .ok "" →
      parse_children L V res word indent st (some c :: rest) i
        = parse_children L V res word indent st rest (i + 1)) ∧
    (∀ (L : LLM) (V : ValidateWord) (res : WordResponse) (word : String)
        (indent : Nat) (st : PState) (c : Node) (rest : List (Option Node))
        (i : Nat) (part : String),
      getPart res word i = .ok part → part ≠ "" →
      parse_children L V res word indent st (some c :: rest) i
        = (match parse_word L V st part c (indent + 1) with
           | (st', none) => parse_children L V res word indent st' rest (i + 1)
           | (st', some e) => (st', some e))) ∧
    ((parse_word llmFirstOnly validateA1 initState "ܡܫܟܚܝܢ" response_tree 0).1.fileOut
      = ["\nWord: ܡܫܟܚܝܢ\n", "    Prefix: ∅\n", "\n    Word: ܡܫܟܚܝܢ\n"]) := by
  exact ⟨getPart_paw_none,
    fun L V res word indent st rest i part h =>
      parse_children_cons_none L V res word indent st rest i part h,
    fun L V res word indent st c rest i h =>
      parse_children_cons_empty L V res word indent st c rest i h,
    fun L V res word indent st c rest i part h hne =>
      parse_children_cons_step L V res word indent st c rest i part h hne,
    by decide⟩

/-- C3 witness: the branch conditions at concrete slots — a `None` slot, a
concrete child with an empty part, and a concrete child with a non-empty part
whose recursive walk fails. -/
theorem C3_witness :
    (getPart (.CompleteFormResponse "y") "w" 0 = .ok "y") ∧
    (getPart (.PrefixedAnalyticalWordResponse none) "w" 0 = .ok "") ∧
    (parse_children (llmConst errCompletion) validateNoneW
        (.CompleteFormResponse "y") "w" 0 initState [none] 0
      = parse_children (llmConst errCompletion) validateNoneW
        (.CompleteFormResponse "y") "w" 0 initState [] 1) ∧
    (parse_children (llmConst errCompletion) validateNoneW
        (.PrefixedAnalyticalWordResponse none) "w" 0 initState
        [some (.node .MorphemeTypeResponse [])] 0
      = parse_children (llmConst errCompletion) validateNoneW
        (.PrefixedAnalyticalWordResponse none) "w" 0 initState [] 1) ∧
    (parse_children (llmConst errCompletion) validateNoneW
        (.CompleteFormResponse "y") "w" 0 initState
        [some (.node .MorphemeTypeResponse [])] 0
      = (match parse_word (llmConst errCompletion) validateNoneW initState "y"
            (.node .MorphemeTypeResponse []) 1 with
         | (st', none) => parse_children (llmConst errCompletion) validateNoneW
             (.CompleteFormResponse "y") "w" 0 st' [] 1
         | (st', some e) => (st', some e))) :=
  ⟨rfl, rfl,
   C3_walker_branch_conditions.2.1 (llmConst errCompletion) validateNoneW
     (.CompleteFormResponse "y") "w" 0 initState [] 0 "y" rfl,
   C3_walker_branch_conditions.2.2.1 (llmConst errCompletion) validateNoneW
     (.PrefixedAnalyticalWordResponse none) "w" 0 initState
     (.node .MorphemeTypeResponse []) [] 0 (getPart_paw_none "w").1,
   C3_walker_branch_conditions.2.2.2.1 (llmConst errCompletion) validateNoneW
     (.CompleteFormResponse "y") "w" 0 initState
     (.node .MorphemeTypeResponse []) [] 0 "y" rfl (by decide)⟩

/-! ## C5: the conversation is append-only and ordered -/

/-- C5: every `MessageQueue` operation only appends entries — the system and
user registrations append exactly one entry, and `register_response` extends
the message list by some tail in every case (success, missing tool call,
failed status) — no entry is removed or reordered; and the sequence sent on
the next request is exactly the accumulated sequence: `get_messages` is the
per-entry cast of `messages` in order, and `Client.request` consults the
service only at that accumulated sequence. -/
theorem C5_queue_append_only :
    (∀ (q : MessageQueue) (content : String),
      q.register_system_message content
        = { q with messages := q.messages ++ [systemEntry content] }) ∧
    (∀ (q : MessageQueue) (content : String),
      q.register_user_message content
        = { q with messages := q.messages ++ [userEntry content] }) ∧
    (∀ (q : MessageQueue) (c : Completion),
      ∃ tail, (q.register_response c).1.messages = q.messages ++ tail) ∧
    (∀ q : MessageQueue, q.get_messages = q.messages.map QEntry.cast) ∧
    (∀ (L : LLM) (q : MessageQueue) (tool : ToolTag),
      Client.request L q tool
        = Client.request (fun _ _ => L q.get_messages tool) q tool) := by
  refine ⟨fun q content => rfl, fun q content => rfl, ?_, fun q => rfl,
    fun L q tool => rfl⟩
  intro q c
  by_cases hst : c.status_code = HTTPStatus_OK
  · match hm : c.output_message.tool_calls with
    | none =>
        exact ⟨[assistantEntry c],
          by simp [MessageQueue.register_response, hst, hm, assistantEntry]⟩
    | some [] =>
        exact ⟨[assistantEntry c],
          by simp [MessageQueue.register_response, hst, hm, assistantEntry]⟩
    | some (call :: tl) =>
        exact ⟨[assistantEntry c, toolEntry call],
          by simp [MessageQueue.register_response, hst, hm, assistantEntry,
            toolEntry]⟩
  · exact ⟨[], by simp [MessageQueue.register_response, hst]⟩

/-! ## C7: failed external call yields empty payload, no exception -/

/-- C7: on a non-success status, `register_response` leaves the message list
untouched, exposes the empty payload (`argument = ""`), prints exactly the
operator warning, and raises nothing; in `parse_word` the empty payload then
fails validation at the next step, so the failure propagates upward as a
validation failure (with the request warning and the invalid-JSON warning on
the console). -/
theorem C7_failed_request :
    (∀ (q : MessageQueue) (c : Completion), c.status_code ≠ HTTPStatus_OK →
      q.register_response c
        = ({ messages := q.messages, argument := "" }, [requestErrorWarning c], none)) ∧
    (∀ (L : LLM) (V : ValidateWord) (st : PState) (word : String)
        (rt : ResponseType) (children : List (Option Node)) (indent : Nat)
        (c : Completion),
      L ((st.queue.register_user_message (get_question rt word)).get_messages)
          (.word rt) = c →
      c.status_code ≠ HTTPStatus_OK →
      V rt "" = none →
      parse_word L V st word (.node rt children) indent
        = ({ queue := { messages := st.queue.messages
                          ++ [userEntry (get_question rt word)],
                        argument := "" },
             fileOut := st.fileOut
               ++ ["\n" ++ strMul pad indent ++ "Word: " ++ word ++ "\n"],
             console := st.console
               ++ [requestErrorWarning c, "", invalidJsonWarning] },
           some validationError)) := by
  constructor
  · intro q c h
    unfold MessageQueue.register_response
    rw [if_neg h]
  · intro L V st word rt children indent c hL hstatus hV
    rw [parse_word.eq_def]
    simp only [Client.request, hL]
    unfold MessageQueue.register_response
    rw [if_neg hstatus]
    simp only [hV]
    simp [List.append_assoc, MessageQueue.register_user_message,
      MessageQueue.register_message, userEntry]

/-- C7 witness: the theorem at a concrete always-failing service. -/
theorem C7_witness :
    (errCompletion.status_code ≠ HTTPStatus_OK) ∧
    (validateNoneW .PrefixedAnalyticalWordResponse "" = none) ∧
    (MessageQueue.new.register_response errCompletion
      = ({ messages := [], argument := "" }, [requestErrorWarning errCompletion], none)) ∧
    (parse_word (llmConst errCompletion) validateNoneW initState "x"
        (.node .PrefixedAnalyticalWordResponse []) 0
      = ({ queue := { messages := initState.queue.messages
                        ++ [userEntry (get_question .PrefixedAnalyticalWordResponse "x")],
                      argument := "" },
           fileOut := initState.fileOut ++ ["\n" ++ strMul pad 0 ++ "Word: " ++ "x" ++ "\n"],
           console := initState.console
             ++ [requestErrorWarning errCompletion, "", invalidJsonWarning] },
         some validationError)) :=
  ⟨by decide, rfl,
   C7_failed_request.1 MessageQueue.new errCompletion (by decide),
   C7_failed_request.2 (llmConst errCompletion) validateNoneW initState "x"
     .PrefixedAnalyticalWordResponse [] 0 errCompletion rfl (by decide) rfl⟩

/-! ## C10: no rollback of effects on validation failure -/

/-- C10: when the payload of a word's question fails validation, the effects
already performed stay in place: the trace keeps the already-written `Word:`
line (and gains no rendered-answer line), and the conversation keeps the user
question entry plus the assistant and tool entries appended by the response
registration, with the failing payload still exposed; the walker then
propagates the validation failure. -/
theorem C10_no_rollback :
    ∀ (L : LLM) (V : ValidateWord) (st : PState) (word : String)
      (rt : ResponseType) (children : List (Option Node)) (indent : Nat)
      (c : Completion) (call : ToolCall) (restCalls : List ToolCall),
      L ((st.queue.register_user_message (get_question rt word)).get_messages)
          (.word rt) = c →
      c.status_code = HTTPStatus_OK →
      c.output_message.tool_calls = some (call :: restCalls) →
      V rt call.arguments = none →
      parse_word L V st word (.node rt children) indent
        = ({ queue := { messages := st.queue.messages
                          ++ [userEntry (get_question rt word),
                              assistantEntry c, toolEntry call],
                        argument := call.arguments },
             fileOut := st.fileOut
               ++ ["\n" ++ strMul pad indent ++ "Word: " ++ word ++ "\n"],
             console := st.console ++ [call.arguments, invalidJsonWarning] },
           some validationError) := by
  intro L V st word rt children indent c call restCalls hL hstatus hcalls hV
  rw [parse_word.eq_def]
  simp only [Client.request, hL]
  unfold MessageQueue.register_response
  rw [if_pos hstatus]
  simp only [hcalls, hV]
  simp [MessageQueue.register_user_message, MessageQueue.register_message,
    List.append_assoc, userEntry, assistantEntry, toolEntry, hcalls]

/-- C10 witness: the theorem at a concrete service whose payload fails
validation. -/
theorem C10_witness :
    ((okCompletion "BAD").status_code = HTTPStatus_OK) ∧
    ((okCompletion "BAD").output_message.tool_calls
      = some (⟨"call1", "tool1", "BAD"⟩ :: [])) ∧
    (validateNoneW .PrefixedAnalyticalWordResponse "BAD" = none) ∧
    (parse_word (llmConst (okCompletion "BAD")) validateNoneW initState "x"
        (.node .PrefixedAnalyticalWordResponse []) 0
      = ({ queue := { messages := initState.queue.messages
                        ++ [userEntry (get_question .PrefixedAnalyticalWordResponse "x"),
                            assistantEntry (okCompletion "BAD"),
                            toolEntry ⟨"call1", "tool1", "BAD"⟩],
                      argument := "BAD" },
           fileOut := initState.fileOut ++ ["\n" ++ strMul pad 0 ++ "Word: " ++ "x" ++ "\n"],
           console := initState.console ++ ["BAD", invalidJsonWarning] },
         some validationError)) :=
  ⟨rfl, rfl, rfl,
   C10_no_rollback (llmConst (okCompletion "BAD")) validateNoneW initState "x"
     .PrefixedAnalyticalWordResponse [] 0 (okCompletion "BAD")
     ⟨"call1", "tool1", "BAD"⟩ [] rfl rfl rfl rfl⟩

/-! ## Walker structure lemmas (for the driver and termination claims) -/

theorem parse_sentence_loop_nil (L : LLM) (V : ValidateWord) (st : PState) :
    parse_sentence_loop L V st [] = (st, none) := by
  rw [parse_sentence_loop]

theorem parse_sentence_loop_cons (L : LLM) (V : ValidateWord) (st : PState)
    (w : String) (ws : List String) :
    parse_sentence_loop L V st (w :: ws)
      = (let st' : PState :=
           match parse_word L V st w response_tree 0 with
           | (s, none) => s
           | (s, some _) => { s with console := s.console ++ [sentenceFailedWarning] }
         parse_sentence_loop L V { st' with fileOut := st'.fileOut ++ ["\n"] } ws) := by
  rw [parse_sentence_loop]

theorem parse_sentence_loop_err_none (L : LLM) (V : ValidateWord)
    (words : List String) : ∀ st : PState,
    (parse_sentence_loop L V st words).2 = none := by
  induction words with
  | nil => intro st; rfl
  | cons w ws ih =>
      intro st
      rw [parse_sentence_loop_cons]
      exact ih _

theorem parse_sentence_loop_catch (L : LLM) (V : ValidateWord) (st : PState)
    (w : String) (ws : List String) (st' : PState) (e : String)
    (h : parse_word L V st w response_tree 0 = (st', some e)) :
    parse_sentence_loop L V st (w :: ws)
      = parse_sentence_loop L V
          { st' with console := st'.console ++ [sentenceFailedWarning],
                     fileOut := st'.fileOut ++ ["\n"] } ws := by
  rw [parse_sentence_loop_cons, h]

theorem heightList_nil : heightList [] = 0 := rfl

theorem heightList_cons_none (rest : List (Option Node)) :
    heightList (none :: rest) = heightList rest := by
  simp only [heightList]

theorem heightList_cons_some (c : Node) (rest : List (Option Node)) :
    heightList (some c :: rest) = max (c.height + 1) (heightList rest) := by
  simp only [heightList]

theorem height_node (rt : ResponseType) (children : List (Option Node)) :
    Node.height (.node rt children) = heightList children := by
  simp only [Node.height]

theorem childrenLoopF_eq (L : LLM) (V : ValidateWord) (f : Nat)
    (ih : ∀ (n : Node), n.height < f → ∀ (st : PState) (word : String) (indent : Nat),
      parse_wordF L V f st word n indent
        = some (parse_word L V st word n indent))
    (res : WordResponse) (word : String) (indent : Nat) :
    ∀ (l : List (Option Node)), heightList l ≤ f →
      ∀ (st : PState) (i : Nat),
        childrenLoopF (fun st w c => parse_wordF L V f st w c (indent + 1))
            res word st l i
          = some (parse_children L V res word indent st l i) := by
  intro l
  induction l with
  | nil =>
      intro _ st i
      rw [parse_children_nil]
      rfl
  | cons child rest ihl =>
      intro hl st i
      cases hg : getPart res word i with
      | error e =>
          rw [parse_children_error L V res word indent st child rest i e hg]
          simp only [childrenLoopF, hg]
      | ok part =>
        cases child with
        | none =>
            have hrest : heightList rest ≤ f := by
              rw [heightList_cons_none] at hl
              exact hl
            rw [parse_children_cons_none L V res word indent st rest i part hg]
            simp only [childrenLoopF, hg]
            exact ihl hrest st (i + 1)
        | some c =>
            have hmax : max (c.height + 1) (heightList rest) ≤ f := by
              rw [heightList_cons_some] at hl
              exact hl
            have hc : c.height < f := by omega
            have hrest : heightList rest ≤ f := by omega
            by_cases hp : part = ""
            · subst hp
              rw [parse_children_cons_empty L V res word indent st c rest i hg]
              simp only [childrenLoopF, hg, if_pos]
              exact ihl hrest st (i + 1)
            · rw [parse_children_cons_step L V res word indent st c rest i part hg hp]
              simp only [childrenLoopF, hg, if_neg hp]
              rw [ih c hc st part (indent + 1)]
              cases hw : parse_word L V st part c (indent + 1) with
              | mk st' errw =>
                cases errw with
                | none => exact ihl hrest st' (i + 1)
                | some e => rfl

theorem parse_wordF_eq (L : LLM) (V : ValidateWord) :
    ∀ (fuel : Nat) (n : Node), n.height < fuel →
      ∀ (st : PState) (word : String) (indent : Nat),
        parse_wordF L V fuel st word n indent
          = some (parse_word L V st word n indent) := by
  intro fuel
  induction fuel with
  | zero => intro n h; exact absurd h (Nat.not_lt_zero _)
  | succ f ihf =>
      intro n hh st word indent
      obtain ⟨rt, children⟩ := n
      have hch : heightList children ≤ f := by
        rw [height_node] at hh
        omega
      rw [parse_word.eq_def]
      simp only [parse_wordF]
      obtain ⟨q2, warns, errReq, response⟩ :=
        Client.request L
          ((({ st with fileOut := st.fileOut
              ++ ["\n" ++ strMul pad indent ++ "Word: " ++ word ++ "\n"] } : PState).queue).register_user_message
            (get_question rt word)) (.word rt)
      dsimp only
      cases errReq with
      | some e => rfl
      | none =>
        cases hv : V rt response with
        | none => rfl
        | some res =>
          exact childrenLoopF_eq L V f (fun n hn => ihf n hn) res word indent
            children hch _ 0

theorem childrenLoopF_fileOut_mono
    (recur : PState → String → Node → Option (PState × Option String))
    (res : WordResponse) (word : String)
    (hrec : ∀ (st : PState) (w : String) (c : Node) (r : PState × Option String),
      recur st w c = some r → ∃ ext, r.1.fileOut = st.fileOut ++ ext) :
    ∀ (l : List (Option Node)) (st : PState) (i : Nat) (r : PState × Option String),
      childrenLoopF recur res word st l i = some r →
      ∃ ext, r.1.fileOut = st.fileOut ++ ext := by
  intro l
  induction l with
  | nil =>
      intro st i r h
      simp only [childrenLoopF] at h
      obtain rfl := Option.some.inj h
      exact ⟨[], (List.append_nil _).symm⟩
  | cons child rest ihl =>
      intro st i r h
      cases hg : getPart res word i with
      | error e =>
          simp only [childrenLoopF, hg] at h
          obtain rfl := Option.some.inj h
          exact ⟨[], (List.append_nil _).symm⟩
      | ok part =>
        cases child with
        | none =>
            simp only [childrenLoopF, hg] at h
            exact ihl st (i + 1) r h
        | some c =>
          simp only [childrenLoopF, hg] at h
          by_cases hp : part = ""
          · rw [if_pos hp] at h
            exact ihl st (i + 1) r h
          · rw [if_neg hp] at h
            cases hw : recur st part c with
            | none => rw [hw] at h; exact absurd h (by simp)
            | some r1 =>
              rw [hw] at h
              obtain ⟨st1, errw⟩ := r1
              obtain ⟨ext1, hext1⟩ := hrec st part c (st1, errw) hw
              cases errw with
              | none =>
                  obtain ⟨ext2, hext2⟩ := ihl st1 (i + 1) r h
                  exact ⟨ext1 ++ ext2, by
                    rw [hext2, hext1, List.append_assoc]⟩
              | some e =>
                  obtain rfl := Option.some.inj h
                  exact ⟨ext1, hext1⟩

theorem parse_wordF_fileOut_mono (L : LLM) (V : ValidateWord) :
    ∀ (fuel : Nat) (n : Node) (st : PState) (word : String) (indent : Nat)
      (r : PState × Option String),
      parse_wordF L V fuel st word n indent = some r →
      ∃ ext, r.1.fileOut = st.fileOut ++ ext := by
  intro fuel
  induction fuel with
  | zero =>
      intro n st word indent r h
      exact absurd h (by simp [parse_wordF])
  | succ f ihf =>
      intro n st word indent r h
      obtain ⟨rt, children⟩ := n
      simp only [parse_wordF] at h
      cases herr : (Client.request L
          (st.queue.register_user_message (get_question rt word))
          (ToolTag.word rt)).2.2.1 with
      | some e =>
          simp only [herr] at h
          obtain rfl := Option.some.inj h
          exact ⟨_, rfl⟩
      | none =>
        simp only [herr] at h
        cases hv : V rt (Client.request L
            (st.queue.register_user_message (get_question rt word))
            (ToolTag.word rt)).2.2.2 with
        | none =>
            simp only [hv] at h
            obtain rfl := Option.some.inj h
            exact ⟨_, rfl⟩
        | some res =>
          simp only [hv] at h
          obtain ⟨ext, hext⟩ :=
            childrenLoopF_fileOut_mono _ res word
              (fun st w c r hr => ihf c st w (indent + 1) r hr)
              children _ 0 r h
          have hext' : r.1.fileOut
              = st.fileOut ++ ["\n" ++ strMul pad indent ++ "Word: " ++ word ++ "\n"]
                ++ [strMul pad (indent + 1) ++ render res ++ "\n"] ++ ext := hext
          refine ⟨["\n" ++ strMul pad indent ++ "Word: " ++ word ++ "\n"]
                ++ [strMul pad (indent + 1) ++ render res ++ "\n"] ++ ext, ?_⟩
          rw [hext']
          simp [List.append_assoc]

theorem parse_word_fileOut_mono (L : LLM) (V : ValidateWord) (st : PState)
    (word : String) (indent : Nat) :
    ∃ ext, (parse_word L V st word response_tree indent).1.fileOut
      = st.fileOut ++ ext := by
  have heq := parse_wordF_eq L V 5 response_tree (by decide) st word indent
  exact parse_wordF_fileOut_mono L V 5 response_tree st word indent _ heq

theorem parse_sentence_loop_blocks (L : LLM) (V : ValidateWord) :
    ∀ (words : List String) (st : PState),
      ∃ blocks : List (List String),
        blocks.length = words.length ∧
        (parse_sentence_loop L V st words).1.fileOut
          = st.fileOut ++ (blocks.map (fun b => b ++ ["\n"])).flatten := by
  intro words
  induction words with
  | nil =>
      intro st
      refine ⟨[], rfl, ?_⟩
      rw [show parse_sentence_loop L V st [] = (st, none) from by
        rw [parse_sentence_loop]]
      simp
  | cons w ws ih =>
      intro st
      rw [parse_sentence_loop_cons]
      obtain ⟨ext, hext⟩ := parse_word_fileOut_mono L V st w 0
      cases hw : parse_word L V st w response_tree 0 with
      | mk st1 errw =>
        rw [hw] at hext
        have hext' : st1.fileOut = st.fileOut ++ ext := hext
        simp only [hw]
        cases errw with
        | none =>
            obtain ⟨blocks, hlen, hblocks⟩ :=
              ih { st1 with fileOut := st1.fileOut ++ ["\n"] }
            refine ⟨ext :: blocks, by simp [hlen], ?_⟩
            rw [hblocks]
            simp [hext', List.append_assoc]
        | some e =>
            obtain ⟨blocks, hlen, hblocks⟩ :=
              ih { queue := st1.queue, fileOut := st1.fileOut ++ ["\n"],
                   console := st1.console ++ [sentenceFailedWarning] }
            refine ⟨ext :: blocks, by simp [hlen], ?_⟩
            rw [hblocks]
            simp [hext', List.append_assoc]

/-! ## C4: sentence-level fault isolation -/

/-- C4: the sentence driver is fault-isolated at two granularities.  If the
word-list answer fails validation the sentence is processed with zero words
and its trace section is exactly the `Sentence:` header (with the payload and
a warning logged); likewise an empty list `[]` yields the header alone.  The
per-word loop never propagates an exception (`.2 = none` for every word list
and every service/validator), each word contributing one block followed by
the blank separator line regardless of success; a walker failure for one word
is caught, logs the warning, and the loop continues with the remaining
words. -/
theorem C4_sentence_fault_isolation :
    (∀ (L : LLM) (VL : ValidateList) (VW : ValidateWord) (st : PState)
        (s : String) (q3 : MessageQueue) (warns : List String) (resp : String),
      Client.request L (initialSentenceQueue s) .listWords = (q3, warns, none, resp) →
      VL resp = none →
      parse_sentence L VL VW st s
        = ({ queue := q3,
             fileOut := st.fileOut ++ ["Sentence: " ++ s ++ "\n"],
             console := st.console ++ warns ++ [resp, invalidJsonWarning] }, none)) ∧
    (∀ (L : LLM) (VL : ValidateList) (VW : ValidateWord) (st : PState)
        (s : String) (q3 : MessageQueue) (warns : List String) (resp : String),
      Client.request L (initialSentenceQueue s) .listWords = (q3, warns, none, resp) →
      VL resp = some [] →
      parse_sentence L VL VW st s
        = ({ queue := q3,
             fileOut := st.fileOut ++ ["Sentence: " ++ s ++ "\n"],
             console := st.console ++ warns }, none)) ∧
    (∀ (L : LLM) (VW : ValidateWord) (st : PState) (words : List String),
      (parse_sentence_loop L VW st words).2 = none) ∧
    (∀ (L : LLM) (VW : ValidateWord) (st : PState) (words : List String),
      ∃ blocks : List (List String), blocks.length = words.length ∧
        (parse_sentence_loop L VW st words).1.fileOut
          = st.fileOut ++ (blocks.map (fun b => b ++ ["\n"])).flatten) ∧
    (∀ (L : LLM) (VW : ValidateWord) (st : PState) (w : String)
        (ws : List String) (st' : PState) (e : String),
      parse_word L VW st w response_tree 0 = (st', some e) →
      parse_sentence_loop L VW st (w :: ws)
        = parse_sentence_loop L VW
            { st' with console := st'.console ++ [sentenceFailedWarning],
                       fileOut := st'.fileOut ++ ["\n"] } ws) := by
  refine ⟨?_, ?_,
    fun L VW st words => parse_sentence_loop_err_none L VW words st,
    fun L VW st words => parse_sentence_loop_blocks L VW words st,
    fun L VW st w ws st' e h => parse_sentence_loop_catch L VW st w ws st' e h⟩
  · intro L VL VW st s q3 warns resp hreq hVL
    simp only [parse_sentence, hreq, hVL, parse_sentence_loop_nil]
  · intro L VL VW st s q3 warns resp hreq hVL
    simp only [parse_sentence, hreq, hVL, parse_sentence_loop_nil]

set_option maxRecDepth 8000 in
/-- C4 witness: the theorem at a concrete service whose word-list payload
fails validation, and at a concrete two-word loop. -/
theorem C4_witness :
    (Client.request (llmConst (okCompletion "LBAD")) (initialSentenceQueue "s1")
        .listWords
      = ((Client.request (llmConst (okCompletion "LBAD"))
            (initialSentenceQueue "s1") .listWords).1, [], none, "LBAD")) ∧
    (validateNoneL "LBAD" = none) ∧
    (parse_sentence (llmConst (okCompletion "LBAD")) validateNoneL validateNoneW
        initState "s1"
      = ({ queue := (Client.request (llmConst (okCompletion "LBAD"))
             (initialSentenceQueue "s1") .listWords).1,
           fileOut := initState.fileOut ++ ["Sentence: " ++ "s1" ++ "\n"],
           console := initState.console ++ [] ++ ["LBAD", invalidJsonWarning] }, none)) ∧
    ((parse_sentence_loop (llmConst errCompletion) validateNoneW initState
        ["w1", "w2"]).2 = none) :=
  ⟨rfl, rfl,
   C4_sentence_fault_isolation.1 (llmConst (okCompletion "LBAD")) validateNoneL
     validateNoneW initState "s1" _ [] "LBAD" rfl rfl,
   C4_sentence_fault_isolation.2.2.1 (llmConst errCompletion) validateNoneW
     initState ["w1", "w2"]⟩

/-! ## C8: termination within the tree height, children in declared order -/

/-- C8: the authored tree has height 4 (edges), and for every service,
validator, state and word the walk over `response_tree` completes within a
recursion-depth budget of height + 1 = 5 (the fuel-bounded walker at fuel 5
returns exactly the unbounded walk's result — termination with depth bounded
by the tree's fixed height); moreover child slots are visited strictly in
declared positional order: processing slot `i` of `child :: rest` walks the
child subtree first and only then processes `rest` at slot `i + 1`, threading
the state produced by the earlier slot. -/
theorem C8_termination_and_order :
    response_tree.height = 4 ∧
    (∀ (L : LLM) (V : ValidateWord) (st : PState) (word : String) (indent : Nat),
      parse_wordF L V 5 st word response_tree indent
        = some (parse_word L V st word response_tree indent)) ∧
    (∀ (L : LLM) (V : ValidateWord) (res : WordResponse) (word : String)
        (indent : Nat) (st : PState) (c : Node) (rest : List (Option Node))
        (i : Nat) (part : String),
      getPart res word i = .ok part → part ≠ "" →
      parse_children L V res word indent st (some c :: rest) i
        = (match parse_word L V st part c (indent + 1) with
           | (st', none) => parse_children L V res word indent st' rest (i + 1)
           | (st', some e) => (st', some e))) := by
  refine ⟨by decide, ?_, ?_⟩
  · intro L V st word indent
    exact parse_wordF_eq L V 5 response_tree (by decide) st word indent
  · intro L V res word indent st c rest i part h hne
    exact parse_children_cons_step L V res word indent st c rest i part h hne

/-- C8 witness: the order conjunct at a concrete slot whose part is the
morpheme-type answer. -/
theorem C8_witness :
    (getPart (.MorphemeTypeResponse "verbal ending") "w" 2 = .ok "verbal ending") ∧
    ("verbal ending" ≠ "") ∧
    (parse_children (llmConst errCompletion) validateNoneW
        (.MorphemeTypeResponse "verbal ending") "w" 1 initState
        [some (.node .CompleteFormResponse [])] 2
      = (match parse_word (llmConst errCompletion) validateNoneW initState
            "verbal ending" (.node .CompleteFormResponse []) 2 with
         | (st', none) => parse_children (llmConst errCompletion) validateNoneW
             (.MorphemeTypeResponse "verbal ending") "w" 1 st' [] 3
         | (st', some e) => (st', some e))) :=
  ⟨rfl, by decide,
   C8_termination_and_order.2.2 (llmConst errCompletion) validateNoneW
     (.MorphemeTypeResponse "verbal ending") "w" 1 initState
     (.node .CompleteFormResponse []) [] 2 "verbal ending" rfl (by decide)⟩

end Syriac
